import Mathlib

/-!
# Shallow embedding of the Selective-Repeat ARQ implementation (sr.c)

Protocol constants, the packet type, the checksum, and the sender (A) and
receiver (B) state machines are translated from `src/sr.c`.  C `int` fields
become `Int`; fixed C arrays become Lean lists; an array access whose index
may fall outside the array is modelled by an `Option`-valued lookup, so an
operation that would read out of bounds in C returns `none`.  The `%`
operator in the C file is only ever applied to non-negative left operands on
the paths modelled here, where C truncated division and Lean `Int.emod`
agree.  Emulator side effects (`tolayer3`, `tolayer5`, `starttimer`,
`stoptimer`) are recorded as an event list; the trace counters
(`window_full`, `new_ACKs`, `packets_resent`, `packets_received`) and
`printf` tracing are external statistics, outside the protocol state.
-/

/-- `WINDOWSIZE` from sr.c: maximum number of buffered unacked packets. -/
def WINDOWSIZE : Int := 6

/-- `SEQSPACE` from sr.c: size of the sequence-number space. -/
def SEQSPACE : Int := 12

/-- `NOTINUSE` from sr.c: filler for header fields that are not being used. -/
def NOTINUSE : Int := -1

/-- `struct pkt` from emulator.h as used by sr.c: sequence number,
acknowledgement number, checksum, and a 20-byte payload. -/
structure Pkt where
  seqnum : Int
  acknum : Int
  checksum : Int
  payload : List Int
deriving DecidableEq, Repr

/-- `ComputeChecksum` from sr.c: sequence number plus acknowledgement number
plus the sum of the payload bytes. -/
def ComputeChecksum (packet : Pkt) : Int :=
  packet.seqnum + packet.acknum + packet.payload.sum

/-- `IsCorrupted` from sr.c: false when the stored checksum matches the
recomputed one, true otherwise. -/
def IsCorrupted (packet : Pkt) : Bool :=
  if packet.checksum == ComputeChecksum packet then false else true

/-- C array read `l[i]` with an `int` index: `none` models the out-of-bounds
access that would be undefined behaviour in C. -/
def lookupI (l : List α) (i : Int) : Option α :=
  if 0 ≤ i then l.get? i.toNat else none

/-- C array write `l[i] = a` (used only at indices already guarded to be in
bounds). -/
def setI (l : List α) (i : Int) (a : α) : List α :=
  l.set i.toNat a

/-- Calls the protocol code makes into the emulator. -/
inductive Event where
  | tolayer3 (packet : Pkt)
  | tolayer5 (payload : List Int)
  | starttimer
  | stoptimer
deriving DecidableEq, Repr

/-- Sender (A) state: the static variables `buffer`, `windowfirst`,
`windowlast`, `windowcount`, `A_nextseqnum`, `acked` of sr.c. -/
structure AState where
  buffer : List Pkt
  windowfirst : Int
  windowlast : Int
  windowcount : Int
  A_nextseqnum : Int
  acked : List Bool
deriving DecidableEq, Repr

/-- The zero-initialised `struct pkt` of a static C array slot. -/
def pkt0 : Pkt :=
  { seqnum := 0, acknum := 0, checksum := 0, payload := List.replicate 20 0 }

/-- Sender state after `A_init` has run on the zero-initialised statics:
`A_nextseqnum = 0`, `windowfirst = 0`, `windowlast = -1`, `windowcount = 0`,
all `acked` flags false. -/
def A_initState : AState :=
  { buffer := List.replicate 6 pkt0
    windowfirst := 0
    windowlast := -1
    windowcount := 0
    A_nextseqnum := 0
    acked := List.replicate 12 false }

/-- `A_output` from sr.c.  When the window is not full it builds the packet,
stores it at `(windowlast+1) % WINDOWSIZE`, transmits it, starts the timer
when it is the only outstanding packet, and advances `A_nextseqnum`; when the
window is full it only bumps the external `window_full` counter, leaving the
protocol state untouched and emitting nothing. -/
def A_output (s : AState) (message : List Int) : AState × List Event :=
  if s.windowcount < WINDOWSIZE then
    let base : Pkt :=
      { seqnum := s.A_nextseqnum, acknum := NOTINUSE, checksum := 0,
        payload := message }
    let sendpkt : Pkt := { base with checksum := ComputeChecksum base }
    let windowlast := (s.windowlast + 1) % WINDOWSIZE
    let windowcount := s.windowcount + 1
    ({ buffer := setI s.buffer windowlast sendpkt
       windowfirst := s.windowfirst
       windowlast := windowlast
       windowcount := windowcount
       A_nextseqnum := (s.A_nextseqnum + 1) % SEQSPACE
       acked := s.acked },
     Event.tolayer3 sendpkt ::
       (if windowcount == 1 then [Event.starttimer] else []))
  else
    (s, [])

/-- The `while (windowcount > 0 && acked[buffer[windowfirst].seqnum])` loop
of `A_input`, advancing the window head and shrinking the window.  `fuel`
bounds the iterations; `A_input` passes `windowcount.toNat`, which the loop
can never exhaust since every iteration decrements `windowcount`. -/
def slideLoop : Nat → AState → Option AState
  | 0, s => some s
  | fuel + 1, s =>
    if 0 < s.windowcount then
      match lookupI s.buffer s.windowfirst with
      | none => none
      | some headPkt =>
        match lookupI s.acked headPkt.seqnum with
        | none => none
        | some flag =>
          if flag then
            slideLoop fuel
              { s with windowfirst := (s.windowfirst + 1) % WINDOWSIZE,
                       windowcount := s.windowcount - 1 }
          else
            some s
    else
      some s

/-- Tail of `A_input` for a fresh (not previously acked) acknowledgement,
entered after `acked[packet.acknum] = true` has produced state `s1`: when
the acknowledgement refers to the window head, slide the window, stop the
timer and restart it when packets remain outstanding. -/
def A_processNewAck (s1 : AState) (packet : Pkt) :
    Option (AState × List Event) :=
  match lookupI s1.buffer s1.windowfirst with
  | none => none
  | some headPkt =>
    if packet.acknum == headPkt.seqnum then
      match slideLoop s1.windowcount.toNat s1 with
      | none => none
      | some s2 =>
        some (s2,
          Event.stoptimer ::
            (if 0 < s2.windowcount then [Event.starttimer] else []))
    else
      some (s1, [])

/-- `A_input` from sr.c.  A corrupted ACK is ignored; an ACK whose sequence
number is already marked acked is ignored as a duplicate; otherwise the
sequence number is marked acked and the fresh-acknowledgement tail
`A_processNewAck` runs.  `none` models the out-of-bounds array accesses
`acked[packet.acknum]` and `buffer[windowfirst]` that would be undefined
behaviour in C. -/
def A_input (s : AState) (packet : Pkt) : Option (AState × List Event) :=
  if IsCorrupted packet then
    some (s, [])
  else
    match lookupI s.acked packet.acknum with
    | none => none
    | some flag =>
      if flag then
        some (s, [])
      else
        A_processNewAck { s with acked := setI s.acked packet.acknum true }
          packet

/-- `A_timerinterrupt` from sr.c: retransmit `buffer[windowfirst]` and
restart the timer when `windowcount > 0`. -/
def A_timerinterrupt (s : AState) : Option (AState × List Event) :=
  match lookupI s.buffer s.windowfirst with
  | none => none
  | some headPkt =>
    some (s,
      Event.tolayer3 headPkt ::
        (if 0 < s.windowcount then [Event.starttimer] else []))

/-- Receiver (B) state: the static variables `expectedseqnum`,
`B_nextseqnum`, `recvpkt`, `received` of sr.c. -/
structure BState where
  expectedseqnum : Int
  B_nextseqnum : Int
  recvpkt : List Pkt
  received : List Bool
deriving DecidableEq, Repr

/-- Receiver statics as zero-initialised at program start, before `B_init`
runs. -/
def B_staticState : BState :=
  { expectedseqnum := 0
    B_nextseqnum := 0
    recvpkt := List.replicate 12 pkt0
    received := List.replicate 12 false }

/-- `B_init` from sr.c: it assigns `expectedseqnum = 0` and
`B_nextseqnum = 1` and touches nothing else — in particular it does not
write the `received` array, which is false only by static initialisation. -/
def B_init (s : BState) : BState :=
  { s with expectedseqnum := 0, B_nextseqnum := 1 }

/-- The `while (received[expectedseqnum])` delivery loop of `B_input`:
deliver the buffered payload, clear the slot, advance the cursor mod
`SEQSPACE`.  Each iteration clears the slot it visits, so with the 12-slot
arrays of sr.c the loop runs at most 12 times; `B_input` passes fuel 13,
which therefore never runs out, and exhaustion is mapped to `none`. -/
def deliverLoop : Nat → BState → List Event → Option (BState × List Event)
  | 0, _, _ => none
  | fuel + 1, s, acc =>
    match lookupI s.received s.expectedseqnum with
    | none => none
    | some false => some (s, acc)
    | some true =>
      match lookupI s.recvpkt s.expectedseqnum with
      | none => none
      | some slot =>
        deliverLoop fuel
          { s with received := setI s.received s.expectedseqnum false,
                   expectedseqnum := (s.expectedseqnum + 1) % SEQSPACE }
          (acc ++ [Event.tolayer5 slot.payload])

/-- The acknowledgement packet `B_input` constructs.  `g` is the
indeterminate value of `sendpkt.seqnum`, which sr.c never assigns.  The
acknowledgement field is assigned twice, first the received sequence number
and then immediately `NOTINUSE`, so the second assignment wins; the payload
is filled with the character constant, byte 48; the checksum is computed
last, over the fields as they then stand. -/
def mkBAck (g : Int) (packet : Pkt) : Pkt :=
  let acknum1 : Int := packet.seqnum
  let acknum2 : Int := NOTINUSE
  let base : Pkt :=
    { seqnum := g, acknum := (fun _ => acknum2) acknum1, checksum := 0,
      payload := List.replicate 20 48 }
  { base with checksum := ComputeChecksum base }

/-- Tail of `B_input` after the caching step: run the contiguous-delivery
loop and transmit the acknowledgement packet. -/
def B_deliverAndAck (g : Int) (s1 : BState) (packet : Pkt) :
    Option (BState × List Event) :=
  match deliverLoop 13 s1 [] with
  | none => none
  | some (s2, delivered) =>
    some (s2, delivered ++ [Event.tolayer3 (mkBAck g packet)])

/-- `B_input` from sr.c.  A corrupted packet is dropped with no state change
and no acknowledgement.  Otherwise the payload is cached unless the sequence
number was already cached, every contiguous slot from `expectedseqnum` is
delivered to layer 5, and the acknowledgement packet `mkBAck g packet` is
transmitted.  `g` is the indeterminate uninitialised `sendpkt.seqnum`;
`none` models the out-of-bounds accesses `received[packet.seqnum]` and
`recvpkt[packet.seqnum]` that would be undefined behaviour in C. -/
def B_input (g : Int) (s : BState) (packet : Pkt) :
    Option (BState × List Event) :=
  if IsCorrupted packet then
    some (s, [])
  else
    match lookupI s.received packet.seqnum with
    | none => none
    | some true => B_deliverAndAck g s packet
    | some false =>
      match lookupI s.recvpkt packet.seqnum with
      | none => none
      | some slot =>
        B_deliverAndAck g
          { s with received := setI s.received packet.seqnum true,
                   recvpkt :=
                     setI s.recvpkt packet.seqnum
                       { slot with payload := packet.payload } }
          packet

/-! ## Helper lemmas about the array-access model -/

lemma lookupI_bounds {α : Type} {l : List α} {i : Int} {a : α}
    (h : lookupI l i = some a) : 0 ≤ i ∧ i.toNat < l.length := by
  unfold lookupI at h
  split at h
  · rename_i hi
    rcases List.get?_eq_some.mp h with ⟨hlt, _⟩
    exact ⟨hi, hlt⟩
  · exact absurd h (by simp)

lemma lookupI_isSome_iff {α : Type} {l : List α} {i : Int} :
    (lookupI l i).isSome = true ↔ 0 ≤ i ∧ i.toNat < l.length := by
  constructor
  · intro h
    rcases Option.isSome_iff_exists.mp h with ⟨a, ha⟩
    exact lookupI_bounds ha
  · rintro ⟨hi, hlt⟩
    unfold lookupI
    rw [if_pos hi, List.get?_eq_get hlt]
    rfl

lemma lookupI_setI_self {α : Type} {l : List α} {i : Int} {a : α} (b : α)
    (h : lookupI l i = some a) : lookupI (setI l i b) i = some b := by
  obtain ⟨hi, hlt⟩ := lookupI_bounds h
  unfold lookupI setI
  rw [if_pos hi]
  exact List.get?_set_eq_of_lt b hlt

/-! ## Helper lemmas about the window-slide loop -/

lemma slideLoop_frame (fuel : Nat) :
    ∀ s s' : AState, slideLoop fuel s = some s' →
      s'.buffer = s.buffer ∧ s'.acked = s.acked := by
  induction fuel with
  | zero =>
    intro s s' h
    simp only [slideLoop, Option.some.injEq] at h
    subst h; exact ⟨rfl, rfl⟩
  | succ n ih =>
    intro s s' h
    unfold slideLoop at h
    split at h
    · split at h
      · exact absurd h (by simp)
      · split at h
        · exact absurd h (by simp)
        · split at h
          · have hmid := ih _ _ h
            exact hmid
          · simp only [Option.some.injEq] at h
            subst h; exact ⟨rfl, rfl⟩
    · simp only [Option.some.injEq] at h
      subst h; exact ⟨rfl, rfl⟩

lemma slideLoop_count (fuel : Nat) :
    ∀ s s' : AState, slideLoop fuel s = some s' →
      s'.windowcount ≤ s.windowcount ∧
      (0 ≤ s.windowcount → 0 ≤ s'.windowcount) := by
  induction fuel with
  | zero =>
    intro s s' h
    simp only [slideLoop, Option.some.injEq] at h
    subst h; exact ⟨le_refl _, fun hc => hc⟩
  | succ n ih =>
    intro s s' h
    unfold slideLoop at h
    split at h
    · rename_i hpos
      split at h
      · exact absurd h (by simp)
      · split at h
        · exact absurd h (by simp)
        · split at h
          · have hmid := ih _ _ h
            have h1 : s'.windowcount ≤ s.windowcount - 1 := hmid.1
            have h2 : 0 ≤ s.windowcount - 1 → 0 ≤ s'.windowcount := hmid.2
            exact ⟨by omega, fun _ => by omega⟩
          · simp only [Option.some.injEq] at h
            subst h; exact ⟨le_refl _, fun hc => hc⟩
    · simp only [Option.some.injEq] at h
      subst h; exact ⟨le_refl _, fun hc => hc⟩

lemma slideLoop_advance (fuel : Nat) :
    ∀ s s' : AState, slideLoop fuel s = some s' →
      ∃ k : Nat, s'.windowcount = s.windowcount - k ∧
        ((k = 0 ∧ s'.windowfirst = s.windowfirst) ∨
         s'.windowfirst = (s.windowfirst + k) % WINDOWSIZE) := by
  induction fuel with
  | zero =>
    intro s s' h
    simp only [slideLoop, Option.some.injEq] at h
    subst h
    exact ⟨0, by omega, Or.inl ⟨rfl, rfl⟩⟩
  | succ n ih =>
    intro s s' h
    unfold slideLoop at h
    split at h
    · split at h
      · exact absurd h (by simp)
      · split at h
        · exact absurd h (by simp)
        · split at h
          · obtain ⟨k, hc, hf⟩ := ih _ _ h
            have hc' : s'.windowcount = s.windowcount - 1 - (k : Int) := hc
            refine ⟨k + 1, by push_cast; omega, Or.inr ?_⟩
            rcases hf with ⟨hk0, hfe⟩ | hfe
            · subst hk0
              have hfe' : s'.windowfirst = (s.windowfirst + 1) % WINDOWSIZE :=
                hfe
              rw [hfe']
              norm_num
            · have hfe' : s'.windowfirst =
                  ((s.windowfirst + 1) % WINDOWSIZE + (k : Int)) %
                    WINDOWSIZE := hfe
              rw [Int.emod_add_emod] at hfe'
              rw [hfe']
              push_cast
              ring_nf
          · simp only [Option.some.injEq] at h
            subst h
            exact ⟨0, by omega, Or.inl ⟨rfl, rfl⟩⟩
    · simp only [Option.some.injEq] at h
      subst h
      exact ⟨0, by omega, Or.inl ⟨rfl, rfl⟩⟩

lemma slideLoop_exit (fuel : Nat) :
    ∀ s s' : AState, slideLoop fuel s = some s' →
      s.windowcount ≤ (fuel : Int) → 0 ≤ s.windowcount →
      s'.windowcount = 0 ∨
        ∃ hq : Pkt, lookupI s'.buffer s'.windowfirst = some hq ∧
          lookupI s'.acked hq.seqnum = some false := by
  induction fuel with
  | zero =>
    intro s s' h hle h0
    simp only [slideLoop, Option.some.injEq] at h
    subst h
    left
    omega
  | succ n ih =>
    intro s s' h hle h0
    unfold slideLoop at h
    split at h
    · rename_i hpos
      split at h
      · exact absurd h (by simp)
      · rename_i headPkt hhead
        split at h
        · exact absurd h (by simp)
        · rename_i flag hflag
          split at h
          · rename_i hfl
            have hmid := ih _ _ h
            have p1 : s.windowcount - 1 ≤ (n : Int) := by push_cast at hle; omega
            have p2 : (0 : Int) ≤ s.windowcount - 1 := by omega
            exact hmid p1 p2
          · rename_i hfl
            simp only [Option.some.injEq] at h
            subst h
            right
            refine ⟨headPkt, hhead, ?_⟩
            rw [hflag]
            simp only [Option.some.injEq]
            exact (Bool.not_eq_true flag).mp hfl
    · rename_i hpos
      simp only [Option.some.injEq] at h
      subst h
      left
      omega

/-! ## Helper lemmas about the receiver -/

lemma B_deliverAndAck_events (g : Int) (s1 s' : BState) (p : Pkt)
    (evs : List Event)
    (hrun : B_deliverAndAck g s1 p = some (s', evs)) :
    evs.getLast? = some (Event.tolayer3 (mkBAck g p)) := by
  unfold B_deliverAndAck at hrun
  split at hrun
  · exact absurd hrun (by simp)
  · simp only [Option.some.injEq, Prod.mk.injEq] at hrun
    rw [← hrun.2]
    exact List.getLast?_concat _

lemma B_input_events (g : Int) (s s' : BState) (p : Pkt) (evs : List Event)
    (hok : IsCorrupted p = false)
    (hrun : B_input g s p = some (s', evs)) :
    evs.getLast? = some (Event.tolayer3 (mkBAck g p)) := by
  unfold B_input at hrun
  split at hrun
  · rename_i hcor
    rw [hok] at hcor
    exact absurd hcor (by simp)
  · split at hrun
    · exact absurd hrun (by simp)
    · exact B_deliverAndAck_events _ _ _ _ _ hrun
    · split at hrun
      · exact absurd hrun (by simp)
      · exact B_deliverAndAck_events _ _ _ _ _ hrun

/-- True exactly on the events that hand a packet to layer 3. -/
def isDataSend : Event → Bool
  | Event.tolayer3 _ => true
  | _ => false

/-! ## Claim theorems -/

/-- C7: a corrupted packet handed to the receiver's `B_input` leaves the
receiver state (expected-sequence cursor, received flags, payload buffer)
unchanged and transmits no acknowledgement (indeed no event at all). -/
theorem B_input_corrupted_drop (g : Int) (s : BState) (p : Pkt)
    (hbad : IsCorrupted p = true) :
    B_input g s p = some (s, []) := by
  unfold B_input
  rw [hbad]
  simp

/-- Witness for C7 at a concrete corrupted packet. -/
def pktC7 : Pkt :=
  { seqnum := 0, acknum := 0, checksum := 1, payload := List.replicate 20 0 }

theorem B_input_corrupted_drop_witness :
    B_input 0 B_staticState pktC7 = some (B_staticState, []) :=
  B_input_corrupted_drop 0 B_staticState pktC7 (by decide)

/-- C8: a message submitted via `A_output` while the window is full
(`windowcount = WINDOWSIZE`) is rejected with no change to the protocol
state, no transmitted packet and no timer start. -/
theorem A_output_full_window_reject (s : AState) (m : List Int)
    (hfull : s.windowcount = WINDOWSIZE) :
    A_output s m = (s, []) := by
  unfold A_output
  rw [hfull]
  norm_num

/-- Witness state for C8: a sender whose window is full. -/
def sC8 : AState := { A_initState with windowcount := 6 }

theorem A_output_full_window_reject_witness :
    A_output sC8 (List.replicate 20 7) = (sC8, []) :=
  A_output_full_window_reject sC8 (List.replicate 20 7) (by decide)

/-- C9: on timer expiry `A_timerinterrupt` leaves the sender state
unchanged, transmits exactly one packet — the one at the window head — and
restarts the timer exactly when the outstanding count is positive. -/
theorem A_timerinterrupt_retransmits_head (s s' : AState) (hp : Pkt)
    (evs : List Event)
    (hhead : lookupI s.buffer s.windowfirst = some hp)
    (hrun : A_timerinterrupt s = some (s', evs)) :
    s' = s ∧
    evs.filter isDataSend = [Event.tolayer3 hp] ∧
    (Event.starttimer ∈ evs ↔ 0 < s.windowcount) := by
  unfold A_timerinterrupt at hrun
  split at hrun
  · exact absurd hrun (by simp)
  · rename_i headPkt hhead2
    rw [hhead2] at hhead
    simp only [Option.some.injEq] at hhead
    subst hhead
    simp only [Option.some.injEq, Prod.mk.injEq] at hrun
    obtain ⟨hs, hevs⟩ := hrun
    subst hs
    refine ⟨rfl, ?_, ?_⟩
    · rw [← hevs]
      by_cases hc : 0 < s.windowcount
      · rw [if_pos hc]
        rfl
      · rw [if_neg hc]
        rfl
    · rw [← hevs]
      by_cases hc : 0 < s.windowcount
      · rw [if_pos hc]
        simp [hc]
      · rw [if_neg hc]
        simp [hc]

theorem A_timerinterrupt_retransmits_head_witness :
    A_initState = A_initState ∧
    [Event.tolayer3 pkt0].filter isDataSend = [Event.tolayer3 pkt0] ∧
    (Event.starttimer ∈ [Event.tolayer3 pkt0] ↔ 0 < A_initState.windowcount) :=
  A_timerinterrupt_retransmits_head A_initState A_initState pkt0
    [Event.tolayer3 pkt0] (by decide) (by decide)

/-- C10 counterexample: `B_init` does not clear the `received` array, so
applied to a receiver state holding a cached packet — here, flag 0 set —
the flag survives, contradicting the claim that after `B_init` on any
receiver state every received flag is false. -/
def sC10 : BState :=
  { expectedseqnum := 5
    B_nextseqnum := 7
    recvpkt := List.replicate 12 pkt0
    received := true :: List.replicate 11 false }

theorem B_init_received_counterexample :
    (B_init sC10).expectedseqnum = 0 ∧
    lookupI (B_init sC10).received 0 = some true ∧
    (some true : Option Bool) ≠ some false := by
  decide

/-- C10 (amended): `B_init` sets the expected-sequence cursor to 0 and
leaves the received flags exactly as they were; in particular, applied to
the statically zero-initialised receiver state — the only state it is ever
applied to in the program, since it runs before any other receiver routine —
every received flag over the full sequence space is false. -/
theorem B_init_spec (s : BState) :
    (B_init s).expectedseqnum = 0 ∧
    (B_init s).received = s.received ∧
    (B_init B_staticState).expectedseqnum = 0 ∧
    (B_init B_staticState).received = List.replicate 12 false :=
  ⟨rfl, rfl, rfl, rfl⟩

/-- Concrete uncorrupted data packet with sequence number 3 used for C1. -/
def pktC1 : Pkt :=
  { seqnum := 3, acknum := 0, checksum := 3, payload := List.replicate 20 0 }

/-- C1 counterexample: for the uncorrupted packet `pktC1` with sequence
number 3, `B_input` transmits an acknowledgement whose acknowledgment field
is `-1`, not the received sequence number — the second assignment
`sendpkt.acknum = NOTINUSE` overwrites the first. -/
theorem B_ack_not_addressed_counterexample :
    IsCorrupted pktC1 = false ∧
    (B_input 0 B_staticState pktC1).map (fun r => r.2.getLast?) =
      some (some (Event.tolayer3 (mkBAck 0 pktC1))) ∧
    (mkBAck 0 pktC1).acknum = -1 ∧
    (mkBAck 0 pktC1).acknum ≠ pktC1.seqnum := by
  decide

/-- C1 (amended): for every uncorrupted packet processed by `B_input`, the
last transmitted event is the acknowledgement packet, whose acknowledgment
field equals `NOTINUSE` (the received sequence number is assigned first but
immediately overwritten), whose payload is filled with the character zero
(byte 48), and whose checksum equals `ComputeChecksum` of the
acknowledgement packet itself, whatever value `g` the uninitialised
`sendpkt.seqnum` holds. -/
theorem B_input_ack_packet_spec (g : Int) (s s' : BState) (p : Pkt)
    (evs : List Event)
    (hok : IsCorrupted p = false)
    (hrun : B_input g s p = some (s', evs)) :
    evs.getLast? = some (Event.tolayer3 (mkBAck g p)) ∧
    (mkBAck g p).acknum = NOTINUSE ∧
    (mkBAck g p).payload = List.replicate 20 48 ∧
    (mkBAck g p).checksum = ComputeChecksum (mkBAck g p) :=
  ⟨B_input_events g s s' p evs hok hrun, rfl, rfl, rfl⟩

/-- Receiver state after `B_input 0 B_staticState pktC1`: sequence 3 cached,
nothing delivered. -/
def sC1out : BState :=
  { B_staticState with
      received := setI B_staticState.received 3 true
      recvpkt := setI B_staticState.recvpkt 3 pkt0 }

theorem B_input_ack_packet_spec_witness :
    [Event.tolayer3 (mkBAck 0 pktC1)].getLast? =
      some (Event.tolayer3 (mkBAck 0 pktC1)) ∧
    (mkBAck 0 pktC1).acknum = NOTINUSE ∧
    (mkBAck 0 pktC1).payload = List.replicate 20 48 ∧
    (mkBAck 0 pktC1).checksum = ComputeChecksum (mkBAck 0 pktC1) :=
  B_input_ack_packet_spec 0 B_staticState sC1out pktC1
    [Event.tolayer3 (mkBAck 0 pktC1)] (by decide) (by decide)

lemma sum_set_of_get? (l : List Int) :
    ∀ (i : Nat) (v w : Int), l.get? i = some w →
      (l.set i v).sum = l.sum - w + v := by
  induction l with
  | nil =>
    intro i v w h
    simp at h
  | cons a t ih =>
    intro i v w h
    cases i with
    | zero =>
      simp only [List.get?, Option.some.injEq] at h
      subst h
      simp only [List.set, List.sum_cons]
      ring
    | succ n =>
      simp only [List.get?] at h
      simp only [List.set, List.sum_cons, ih n v w h]
      ring

/-- C6: starting from an uncorrupted packet `p`, mutating the sequence
number, the acknowledgment number, or exactly one payload byte — leaving the
stored checksum untouched, as the record updates do — always yields a packet
that `IsCorrupted` flags as corrupted. -/
theorem checksum_detects_single_byte_mutation (p q : Pkt) (i : Nat)
    (v w : Int)
    (hok : IsCorrupted p = false)
    (hmut :
      (q = { p with seqnum := v } ∧ v ≠ p.seqnum) ∨
      (q = { p with acknum := v } ∧ v ≠ p.acknum) ∨
      (q = { p with payload := p.payload.set i v } ∧
        p.payload.get? i = some w ∧ v ≠ w)) :
    IsCorrupted q = true := by
  have hch : p.checksum = ComputeChecksum p := by
    unfold IsCorrupted at hok
    split at hok
    · rename_i h
      exact beq_iff_eq.mp h
    · exact absurd hok (by simp)
  unfold IsCorrupted
  split
  · rename_i h
    have heq : q.checksum = ComputeChecksum q := beq_iff_eq.mp h
    exfalso
    unfold ComputeChecksum at heq hch
    rcases hmut with ⟨hq, hne⟩ | ⟨hq, hne⟩ | ⟨hq, hget, hne⟩
    · subst hq
      dsimp only at heq
      omega
    · subst hq
      dsimp only at heq
      omega
    · subst hq
      dsimp only at heq
      rw [sum_set_of_get? p.payload i v w hget] at heq
      omega
  · rfl

theorem checksum_detects_single_byte_mutation_witness :
    IsCorrupted { pkt0 with seqnum := 1 } = true :=
  checksum_detects_single_byte_mutation pkt0 { pkt0 with seqnum := 1 } 0 1 0
    (by decide) (Or.inl ⟨rfl, by decide⟩)

/-- C2: with a full-size acked array, the sender-side read
`acked[packet.acknum]` embedded in `A_input` is in bounds exactly under the
precondition `0 ≤ acknum < SEQSPACE`; the acknowledgement packet that
`B_input` itself transmits carries `acknum = NOTINUSE = -1`, violating that
precondition, so `A_input` applied to it reaches the out-of-bounds access
(modelled as `none`). -/
theorem A_input_acked_index_bounds (s : AState) (g : Int) (bs bs' : BState)
    (p : Pkt) (r : Int) (evs : List Event)
    (hlen : s.acked.length = 12)
    (hok : IsCorrupted p = false)
    (hrun : B_input g bs p = some (bs', evs)) :
    ((lookupI s.acked r).isSome = true ↔ 0 ≤ r ∧ r < SEQSPACE) ∧
    evs.getLast? = some (Event.tolayer3 (mkBAck g p)) ∧
    (mkBAck g p).acknum = NOTINUSE ∧
    ¬(0 ≤ (mkBAck g p).acknum ∧ (mkBAck g p).acknum < SEQSPACE) ∧
    A_input s (mkBAck g p) = none := by
  have hacknum : (mkBAck g p).acknum = -1 := rfl
  refine ⟨?_, B_input_events g bs bs' p evs hok hrun, rfl, ?_, ?_⟩
  · rw [lookupI_isSome_iff, hlen]
    unfold SEQSPACE
    constructor
    · rintro ⟨h1, h2⟩
      exact ⟨h1, by omega⟩
    · rintro ⟨h1, h2⟩
      exact ⟨h1, by omega⟩
  · rw [hacknum]
    rintro ⟨h1, _⟩
    omega
  · have hbeq : ((mkBAck g p).checksum == ComputeChecksum (mkBAck g p)) =
        true := beq_iff_eq.mpr rfl
    have hcor : IsCorrupted (mkBAck g p) = false := by
      unfold IsCorrupted
      rw [hbeq]
      simp
    have hnone : lookupI s.acked (mkBAck g p).acknum = (none : Option Bool) := by
      rw [hacknum]
      unfold lookupI
      rw [if_neg (by norm_num)]
    unfold A_input
    rw [hcor, hnone]
    rfl

/-- Concrete uncorrupted data packet with sequence number 2 used for C2. -/
def pktC2 : Pkt :=
  { seqnum := 2, acknum := 0, checksum := 2, payload := List.replicate 20 0 }

/-- Receiver state after `B_input 0 B_staticState pktC2`. -/
def sC2out : BState :=
  { B_staticState with
      received := setI B_staticState.received 2 true
      recvpkt := setI B_staticState.recvpkt 2 pkt0 }

theorem A_input_acked_index_bounds_witness :
    ((lookupI A_initState.acked (11 : Int)).isSome = true ↔
      0 ≤ (11 : Int) ∧ (11 : Int) < SEQSPACE) ∧
    [Event.tolayer3 (mkBAck 0 pktC2)].getLast? =
      some (Event.tolayer3 (mkBAck 0 pktC2)) ∧
    (mkBAck 0 pktC2).acknum = NOTINUSE ∧
    ¬(0 ≤ (mkBAck 0 pktC2).acknum ∧ (mkBAck 0 pktC2).acknum < SEQSPACE) ∧
    A_input A_initState (mkBAck 0 pktC2) = none :=
  A_input_acked_index_bounds A_initState 0 B_staticState sC2out pktC2 11
    [Event.tolayer3 (mkBAck 0 pktC2)] (by decide) (by decide) (by decide)

lemma A_processNewAck_acked (s1 s' : AState) (p : Pkt) (evs : List Event)
    (h : A_processNewAck s1 p = some (s', evs)) : s'.acked = s1.acked := by
  unfold A_processNewAck at h
  split at h
  · exact absurd h (by simp)
  · split at h
    · split at h
      · exact absurd h (by simp)
      · rename_i s2 hslide
        simp only [Option.some.injEq, Prod.mk.injEq] at h
        obtain ⟨h1, _⟩ := h
        subst h1
        exact (slideLoop_frame _ _ _ hslide).2
    · simp only [Option.some.injEq, Prod.mk.injEq] at h
      obtain ⟨h1, _⟩ := h
      subst h1
      rfl

/-- C5: processing the same uncorrupted acknowledgement a second time with
`A_input` leaves the sender state reached after the first processing
unchanged — the second run returns exactly that state, with no emulator
calls. -/
theorem A_input_idempotent (s s' : AState) (p : Pkt) (evs : List Event)
    (hok : IsCorrupted p = false)
    (hrun : A_input s p = some (s', evs)) :
    A_input s' p = some (s', []) := by
  have hokp : ¬IsCorrupted p = true := by
    rw [hok]
    simp
  unfold A_input at hrun ⊢
  rw [if_neg hokp] at hrun ⊢
  split at hrun
  · exact absurd hrun (by simp)
  · rename_i flag heq
    split at hrun
    · rename_i hflag
      simp only [Option.some.injEq, Prod.mk.injEq] at hrun
      obtain ⟨h1, h2⟩ := hrun
      subst h1
      subst hflag
      rw [heq]
      rfl
    · rename_i hflag
      have hflag' : flag = false := by
        cases flag
        · rfl
        · exact absurd rfl hflag
      subst hflag'
      have hacked : s'.acked = setI s.acked p.acknum true :=
        A_processNewAck_acked _ _ _ _ hrun
      have hlk : lookupI s'.acked p.acknum = some true := by
        rw [hacked]
        exact lookupI_setI_self true heq
      rw [hlk]
      rfl

/-- Concrete uncorrupted acknowledgement with acknum 0 used for C5. -/
def pktC5 : Pkt :=
  { seqnum := 9, acknum := 0, checksum := 9, payload := List.replicate 20 0 }

/-- Sender state after `A_input A_initState pktC5`. -/
def sC5out : AState :=
  { A_initState with acked := setI A_initState.acked 0 true }

theorem A_input_idempotent_witness :
    A_input sC5out pktC5 = some (sC5out, []) :=
  A_input_idempotent A_initState sC5out pktC5 [Event.stoptimer]
    (by decide) (by decide)

/-- C3: every uncorrupted, not-previously-acked acknowledgement processed
by `A_input` marks the acknowledged sequence number acked (the marking at
sr.c line 130 runs before the head comparison); additionally, when that
number equals the window head's sequence number, the head advances by
exactly the number of slots removed while the outstanding count decrements
(window slide), stopping when the count hits zero or the new head is not
yet acked, a timer stop is emitted, and the timer is restarted exactly when
the outstanding count is still positive; when it does not match the head,
the marking is the only state change and no event is emitted. -/
theorem A_input_new_ack_slides_window (s s' : AState) (p hp : Pkt)
    (evs : List Event)
    (hok : IsCorrupted p = false)
    (hfresh : lookupI s.acked p.acknum = some false)
    (hcnt : 0 ≤ s.windowcount)
    (hhead : lookupI s.buffer s.windowfirst = some hp)
    (hrun : A_input s p = some (s', evs)) :
    lookupI s'.acked p.acknum = some true ∧
    (p.acknum = hp.seqnum →
      s'.windowcount ≤ s.windowcount ∧
      0 ≤ s'.windowcount ∧
      ((s'.windowcount = s.windowcount ∧ s'.windowfirst = s.windowfirst) ∨
        s'.windowfirst =
          (s.windowfirst + (s.windowcount - s'.windowcount)) % WINDOWSIZE) ∧
      (s'.windowcount = 0 ∨
        (lookupI s'.buffer s'.windowfirst).map
          (fun hq => lookupI s'.acked hq.seqnum) = some (some false)) ∧
      Event.stoptimer ∈ evs ∧
      (Event.starttimer ∈ evs ↔ 0 < s'.windowcount)) ∧
    (p.acknum ≠ hp.seqnum →
      s' = { s with acked := setI s.acked p.acknum true } ∧ evs = []) := by
  have hokp : ¬IsCorrupted p = true := by
    rw [hok]
    simp
  unfold A_input at hrun
  rw [if_neg hokp] at hrun
  split at hrun
  · exact absurd hrun (by simp)
  · rename_i flag heq
    rw [hfresh] at heq
    simp only [Option.some.injEq] at heq
    subst heq
    split at hrun
    · rename_i hbad
      exact absurd hbad (by simp)
    · unfold A_processNewAck at hrun
      split at hrun
      · exact absurd hrun (by simp)
      · rename_i headPkt hheadeq
        have hhead2 : lookupI s.buffer s.windowfirst = some headPkt := hheadeq
        rw [hhead] at hhead2
        simp only [Option.some.injEq] at hhead2
        subst hhead2
        split at hrun
        · rename_i hbeq
          have hm : p.acknum = hp.seqnum := beq_iff_eq.mp hbeq
          split at hrun
          · exact absurd hrun (by simp)
          · rename_i s2 hslide
            simp only [Option.some.injEq, Prod.mk.injEq] at hrun
            obtain ⟨h1, h2⟩ := hrun
            subst h1
            have hacked : s2.acked = setI s.acked p.acknum true :=
              (slideLoop_frame _ _ _ hslide).2
            have hcounts := slideLoop_count _ _ _ hslide
            have hc1 : s2.windowcount ≤ s.windowcount := hcounts.1
            have hc2 : (0 : Int) ≤ s2.windowcount := hcounts.2 hcnt
            refine ⟨?_, fun _ => ⟨hc1, hc2, ?_, ?_, ?_, ?_⟩,
              fun hne => absurd hm hne⟩
            · rw [hacked]
              exact lookupI_setI_self true hfresh
            · obtain ⟨k, hck, hf⟩ := slideLoop_advance _ _ _ hslide
              have hck' : s2.windowcount = s.windowcount - (k : Int) := hck
              rcases hf with ⟨hk0, hfe⟩ | hfe
              · subst hk0
                have hfe' : s2.windowfirst = s.windowfirst := hfe
                exact Or.inl ⟨by omega, hfe'⟩
              · have hfe' : s2.windowfirst =
                    (s.windowfirst + (k : Int)) % WINDOWSIZE := hfe
                have hkeq : (k : Int) = s.windowcount - s2.windowcount := by
                  omega
                rw [hkeq] at hfe'
                exact Or.inr hfe'
            · have p1 : s.windowcount ≤ (s.windowcount.toNat : Int) := by
                omega
              have hex := slideLoop_exit _ _ _ hslide p1 hcnt
              rcases hex with h0 | ⟨hq, hq1, hq2⟩
              · exact Or.inl h0
              · right
                rw [hq1]
                simp only [Option.map_some']
                rw [hq2]
            · rw [← h2]
              exact List.mem_cons_self _ _
            · rw [← h2]
              by_cases hc : 0 < s2.windowcount
              · rw [if_pos hc]
                simp [hc]
              · rw [if_neg hc]
                simp [hc]
        · rename_i hbne
          have hne : p.acknum ≠ hp.seqnum := fun hm => hbne (beq_iff_eq.mpr hm)
          simp only [Option.some.injEq, Prod.mk.injEq] at hrun
          obtain ⟨h1, h2⟩ := hrun
          subst h1
          subst h2
          refine ⟨lookupI_setI_self true hfresh, fun hm => absurd hm hne,
            fun _ => ⟨rfl, rfl⟩⟩

/-- The data packet `A_output` builds first from `A_initState` (sequence 0,
zero payload). -/
def pktA0 : Pkt :=
  { seqnum := 0, acknum := -1, checksum := -1, payload := List.replicate 20 0 }

/-- Sender state after submitting one message from the initial state. -/
def sC3 : AState := (A_output A_initState (List.replicate 20 0)).1

/-- Concrete uncorrupted acknowledgement for sequence 0 used for C3. -/
def pktC3ack : Pkt :=
  { seqnum := 5, acknum := 0, checksum := 5, payload := List.replicate 20 0 }

/-- Sender state after `A_input sC3 pktC3ack`: sequence 0 acked, window
slid to empty. -/
def sC3out : AState :=
  { sC3 with windowfirst := 1, windowcount := 0,
             acked := setI sC3.acked 0 true }

theorem A_input_new_ack_slides_window_witness :
    lookupI sC3out.acked pktC3ack.acknum = some true ∧
    (pktC3ack.acknum = pktA0.seqnum →
      sC3out.windowcount ≤ sC3.windowcount ∧
      0 ≤ sC3out.windowcount ∧
      ((sC3out.windowcount = sC3.windowcount ∧
          sC3out.windowfirst = sC3.windowfirst) ∨
        sC3out.windowfirst =
          (sC3.windowfirst + (sC3.windowcount - sC3out.windowcount)) %
            WINDOWSIZE) ∧
      (sC3out.windowcount = 0 ∨
        (lookupI sC3out.buffer sC3out.windowfirst).map
          (fun hq => lookupI sC3out.acked hq.seqnum) = some (some false)) ∧
      Event.stoptimer ∈ [Event.stoptimer] ∧
      (Event.starttimer ∈ [Event.stoptimer] ↔ 0 < sC3out.windowcount)) ∧
    (pktC3ack.acknum ≠ pktA0.seqnum →
      sC3out = { sC3 with acked := setI sC3.acked pktC3ack.acknum true } ∧
      [Event.stoptimer] = ([] : List Event)) :=
  A_input_new_ack_slides_window sC3 sC3out pktC3ack pktA0 [Event.stoptimer]
    (by decide) (by decide) (by decide) (by decide) (by decide)

lemma A_processNewAck_count (s1 s' : AState) (p : Pkt) (evs : List Event)
    (h : A_processNewAck s1 p = some (s', evs)) :
    s'.windowcount ≤ s1.windowcount ∧
    (0 ≤ s1.windowcount → 0 ≤ s'.windowcount) := by
  unfold A_processNewAck at h
  split at h
  · exact absurd h (by simp)
  · split at h
    · split at h
      · exact absurd h (by simp)
      · rename_i s2 hslide
        simp only [Option.some.injEq, Prod.mk.injEq] at h
        obtain ⟨h1, _⟩ := h
        subst h1
        exact slideLoop_count _ _ _ hslide
    · simp only [Option.some.injEq, Prod.mk.injEq] at h
      obtain ⟨h1, _⟩ := h
      subst h1
      exact ⟨le_refl _, fun hc => hc⟩

/-- Sender states reachable from the initial state by any sequence of
submit (`A_output`), acknowledgement arrival (`A_input`) and timeout
(`A_timerinterrupt`) transitions. -/
inductive AReach : AState → Prop
  | init : AReach A_initState
  | output (s s' : AState) (evs : List Event) (m : List Int) :
      AReach s → A_output s m = (s', evs) → AReach s'
  | input (s s' : AState) (evs : List Event) (p : Pkt) :
      AReach s → A_input s p = some (s', evs) → AReach s'
  | timer (s s' : AState) (evs : List Event) :
      AReach s → A_timerinterrupt s = some (s', evs) → AReach s'

/-- C4: in every sender state reachable from the initial state, the
outstanding packet count stays between 0 and `WINDOWSIZE`. -/
theorem AReach_windowcount_bounds (s : AState) (h : AReach s) :
    0 ≤ s.windowcount ∧ s.windowcount ≤ WINDOWSIZE := by
  induction h with
  | init => exact ⟨by decide, by decide⟩
  | output s s' evs m hr heq ih =>
    unfold A_output at heq
    split at heq
    · rename_i hlt
      have hlt' : s.windowcount < 6 := hlt
      simp only [Prod.mk.injEq] at heq
      obtain ⟨h1, _⟩ := heq
      subst h1
      obtain ⟨ih1, ih2⟩ := ih
      dsimp only [WINDOWSIZE]
      constructor
      · omega
      · omega
    · simp only [Prod.mk.injEq] at heq
      obtain ⟨h1, _⟩ := heq
      subst h1
      exact ih
  | input s s' evs p hr heq ih =>
    unfold A_input at heq
    split at heq
    · simp only [Option.some.injEq, Prod.mk.injEq] at heq
      obtain ⟨h1, _⟩ := heq
      subst h1
      exact ih
    · split at heq
      · exact absurd heq (by simp)
      · split at heq
        · simp only [Option.some.injEq, Prod.mk.injEq] at heq
          obtain ⟨h1, _⟩ := heq
          subst h1
          exact ih
        · have hcnt := A_processNewAck_count _ _ _ _ heq
          have hc1 : s'.windowcount ≤ s.windowcount := hcnt.1
          have hc2 : 0 ≤ s.windowcount → 0 ≤ s'.windowcount := hcnt.2
          obtain ⟨ih1, ih2⟩ := ih
          exact ⟨hc2 ih1, le_trans hc1 ih2⟩
  | timer s s' evs hr heq ih =>
    unfold A_timerinterrupt at heq
    split at heq
    · exact absurd heq (by simp)
    · simp only [Option.some.injEq, Prod.mk.injEq] at heq
      obtain ⟨h1, _⟩ := heq
      subst h1
      exact ih

theorem AReach_windowcount_bounds_witness :
    0 ≤ A_initState.windowcount ∧ A_initState.windowcount ≤ WINDOWSIZE :=
  AReach_windowcount_bounds A_initState AReach.init
